import Mathlib

/-!
Verification development for the transaction propagation engine of the
drizzle-transactional repository.

The TypeScript sources are shallowly embedded as executable Lean
definitions:

* `src/context/async-local-storage.ts` — the ambient context carrier
  (`runWithContext`, `getContextValue`, `setContextValue`,
  `hasActiveContext`).  A JavaScript `Map<string, unknown>` store is
  modelled as an association list `Ctx`; `runWithContext` copies the
  current store (`new Map(currentStore)`) and merges the given bindings,
  so child scopes never alias the parent store.
* `src/hooks/index.ts` — per-scope hook registry built on a Node
  `EventEmitter`.  Emitters are identified by numeric ids held in a
  global emitter table; `emit` invokes the listeners of one kind in
  registration order, each `once`-listener being removed just before it
  is invoked, and a listener that throws aborts the emit and propagates
  its error (Node semantics — `emit` does not catch).
* `src/drizzle/database-manager.ts` — database registry, the
  context-aware handle resolver `getCurrentDatabaseInfo`, and the
  transaction runner `runInDatabaseTransaction`.  The underlying drizzle
  driver transaction is modelled as a write buffer: writes performed
  through a transaction handle are buffered and appended to `persisted`
  on commit, discarded on rollback; writes through a base handle
  persist immediately.
* `src/transactions/wrap-in-transaction.ts` — the propagation engine
  (`propagationHandlers`, `wrapInTransaction`, `executeWithPropagation`).

Business operations wrapped by the engine are represented by the small
program type `Prog`, executed by the fuel-indexed interpreter `exec`.
Isolation levels are passed through to the driver uninterpreted by the
core and are elided from the model; listener callbacks are modelled by
an id plus a flag saying whether the callback throws.
-/

/-! ## Association-list maps (model of JavaScript `Map`) -/

/-- Lookup in an association list (model of `Map.get`). -/
def getA {κ α : Type} [DecidableEq κ] (k : κ) : List (κ × α) → Option α
  | [] => none
  | (k2, v) :: rest => if k2 = k then some v else getA k rest

/-- Insert or overwrite in an association list (model of `Map.set`);
keys are unique, so at most one entry is replaced. -/
def setA {κ α : Type} [DecidableEq κ] (k : κ) (v : α) : List (κ × α) → List (κ × α)
  | [] => [(k, v)]
  | (k2, v2) :: rest => if k2 = k then (k, v) :: rest else (k2, v2) :: setA k v rest

/-- Remove a key from an association list (model of `Map.delete`). -/
def eraseA {κ α : Type} [DecidableEq κ] (k : κ) : List (κ × α) → List (κ × α)
  | [] => []
  | (k2, v) :: rest => if k2 = k then rest else (k2, v) :: eraseA k rest

@[simp] theorem getA_nil {κ α : Type} [DecidableEq κ] (k : κ) :
    getA (α := α) k [] = none := rfl

@[simp] theorem getA_cons_self {κ α : Type} [DecidableEq κ] (k : κ) (v : α) (m : List (κ × α)) :
    getA k ((k, v) :: m) = some v := by simp [getA]

@[simp] theorem getA_cons_ne {κ α : Type} [DecidableEq κ] {k k2 : κ} (v : α) (m : List (κ × α))
    (h : k2 ≠ k) : getA k ((k2, v) :: m) = getA k m := by simp [getA, h]

@[simp] theorem getA_setA_self {κ α : Type} [DecidableEq κ] (k : κ) (v : α) (m : List (κ × α)) :
    getA k (setA k v m) = some v := by
  induction m with
  | nil => simp [setA]
  | cons hd tl ih =>
    obtain ⟨k2, v2⟩ := hd
    by_cases h : k2 = k
    · subst h; simp [setA]
    · simp [setA, getA, h, ih]

@[simp] theorem getA_setA_ne {κ α : Type} [DecidableEq κ] {k k2 : κ} (v : α) (m : List (κ × α))
    (h : k2 ≠ k) : getA k (setA k2 v m) = getA k m := by
  induction m with
  | nil => simp [setA, getA, h]
  | cons hd tl ih =>
    obtain ⟨k3, v3⟩ := hd
    by_cases h2 : k3 = k2
    · subst h2; simp [setA, getA, h]
    · simp [setA, getA, h2, ih]

/-! ## Context carrier (`src/context/async-local-storage.ts`) -/

/-- A value stored in the ambient context: the sources store booleans
(the in-transaction flag), strings (transaction ids — modelled as
numbers drawn from a fresh counter) and the per-scope hook emitter
(modelled by its numeric id). -/
inductive CtxVal where
  | bool : Bool → CtxVal
  | nat : Nat → CtxVal
deriving DecidableEq, Repr

/-- The contents of one `Map<string, unknown>` store. -/
abbrev Ctx := List (String × CtxVal)

/-- Model of `getContextValue`: read a key from the current store
(`undefined` when no store is active). -/
def getContextValue (k : String) (amb : Option Ctx) : Option CtxVal :=
  match amb with
  | none => none
  | some c => getA k c

/-- Model of `setContextValue`: mutate the current innermost store if
one exists, no-op otherwise. -/
def setContextValue (k : String) (v : CtxVal) (amb : Option Ctx) : Option Ctx :=
  match amb with
  | none => none
  | some c => some (setA k v c)

/-- Model of `hasActiveContext`. -/
def hasActiveContext (amb : Option Ctx) : Bool :=
  amb.isSome

/-- Model of the store construction in `runWithContext`: copy the
current store (`new Map(currentStore)`, empty when absent) and merge the
given bindings over it. -/
def mergeCtx (amb : Option Ctx) (bindings : List (String × CtxVal)) : Ctx :=
  bindings.foldl (fun c kv => setA kv.1 kv.2 c) (match amb with | none => [] | some c => c)

/-! ## A deep embedding of context-carrier client programs (for the
scope-isolation claim).  `CProg` is an arbitrary computation built from
the context API; `cexec` runs it with the `AsyncLocalStorage` semantics:
`enterScope` runs its sub-program with the merged copied store and the
previous store becomes current again when the sub-program settles, on
the success and on the failure path alike. -/

inductive CProg where
  | ret : CProg
  | fail : String → CProg
  | cwrite : String → CtxVal → CProg → CProg
  | enterScope : List (String × CtxVal) → CProg → CProg → CProg
  | branchOn : String → (Option CtxVal → CProg) → CProg

/-- Run a context-carrier client program.  The returned `Option Ctx` is
the ambient store after the program settles. -/
def cexec : Nat → CProg → Option Ctx → Except String Unit × Option Ctx
  | 0, _, amb => (Except.error "fuel", amb)
  | Nat.succ n, p, amb =>
    match p with
    | CProg.ret => (Except.ok (), amb)
    | CProg.fail m => (Except.error m, amb)
    | CProg.cwrite k v next => cexec n next (setContextValue k v amb)
    | CProg.enterScope b sub next =>
      let r := cexec n sub (some (mergeCtx amb b))
      match r.1 with
      | Except.ok _ => cexec n next amb
      | Except.error e => (Except.error e, amb)
    | CProg.branchOn k f => cexec n (f (getContextValue k amb)) amb

/-! ## Errors (`src/errors/transactional.ts`) -/

/-- The error taxonomy of `DrizzleTransactionalError` (identified by the
`code` field), plus errors raised by user code and by hook listeners,
and the interpreter fuel bound. -/
inductive Err where
  | notInitialized : Err
  | databaseAlreadyRegistered : String → Err
  | databaseNotFound : String → Err
  | propagation : String → Err
  | unknownPropagation : String → Err
  | noTransactionDatabaseForId : Nat → Err
  | contextErr : String → Err
  | user : String → Err
  | listener : Nat → Err
  | fuel : Err
deriving DecidableEq, Repr

/-! ## Hook registry (`src/hooks/index.ts`) -/

/-- The three event kinds of a hook scope. -/
inductive HookKind where
  | commit : HookKind
  | rollback : HookKind
  | endK : HookKind
deriving DecidableEq, Repr

/-- A registered hook listener: its identity and whether the callback
throws when invoked. -/
structure Listener where
  lid : Nat
  fails : Bool
deriving DecidableEq, Repr

/-- The ordered listener lists of one `EventEmitter` hook scope. -/
structure Hooks where
  commitL : List Listener
  rollbackL : List Listener
  endL : List Listener
deriving DecidableEq, Repr

def Hooks.empty : Hooks := ⟨[], [], []⟩

/-- Observable events, recorded in order: driver transaction lifecycle,
writes resolved through the handle resolver (`some id` = the transaction
handle registered under `id`, `none` = the base handle), hook scope
creation, listener invocations (with the error argument passed), and the
`console.warn` in the REQUIRES_NEW handler. -/
inductive Ev where
  | txBegin : Nat → Ev
  | txCommit : Nat → Ev
  | txRollback : Nat → Ev
  | wrote : Option Nat → String → Nat → Ev
  | hookCreated : Nat → Ev
  | invoked : Nat → HookKind → Option Err → Ev
  | warned : Ev
deriving DecidableEq, Repr

/-- The global mutable state of the embedding: the database registry
(`registeredDatabases`, name to base-handle id), the live transaction
registry (`transactionDatabases`, ids of registered transaction
handles), the driver state (open transaction write buffers and the
committed writes), the emitter table, the event log and the fresh-id
counters (`randomUUID` is collision-resistant; it is modelled by a
counter). -/
structure St where
  initialized : Bool
  regDbs : List (String × Nat)
  txReg : List Nat
  openTx : List (Nat × List (String × Nat))
  persisted : List (String × Nat)
  emitters : List (Nat × Hooks)
  evLog : List Ev
  nextTx : Nat
  nextEmitter : Nat
deriving DecidableEq, Repr

/-- Result of running an engine computation: the settled result, the
ambient store afterwards (store mutations survive a raised error; a
scope exit restores the outer store) and the global state. -/
structure Out where
  res : Except Err Unit
  amb : Option Ctx
  st : St

def getEmitter (eid : Nat) (st : St) : Hooks :=
  (getA eid st.emitters).getD Hooks.empty

def setEmitter (eid : Nat) (h : Hooks) (st : St) : St :=
  { st with emitters := setA eid h st.emitters }

def getKindList (eid : Nat) (kind : HookKind) (st : St) : List Listener :=
  match kind with
  | HookKind.commit => (getEmitter eid st).commitL
  | HookKind.rollback => (getEmitter eid st).rollbackL
  | HookKind.endK => (getEmitter eid st).endL

def setKindList (eid : Nat) (kind : HookKind) (ls : List Listener) (st : St) : St :=
  let h := getEmitter eid st
  match kind with
  | HookKind.commit => setEmitter eid { h with commitL := ls } st
  | HookKind.rollback => setEmitter eid { h with rollbackL := ls } st
  | HookKind.endK => setEmitter eid { h with endL := ls } st

/-- Model of `emitter.once(kind, listener)` as used by
`runOnTransactionCommit` / `runOnTransactionRollback` /
`runOnTransactionComplete`: append to the ordered list for the kind. -/
def addListener (eid : Nat) (kind : HookKind) (l : Listener) (st : St) : St :=
  setKindList eid kind (getKindList eid kind st ++ [l]) st

/-- Model of `EventEmitter.emit` over an explicit list of remaining
listeners: each listener is removed from the emitter (the `once`
wrapper) and then invoked; a listener that throws aborts the emit and
its error propagates, leaving the later listeners registered. -/
def emitGo (eid : Nat) (kind : HookKind) (arg : Option Err) :
    List Listener → St → Option Err × St
  | [], st => (none, st)
  | l :: rest, st =>
    let st1 := setKindList eid kind rest st
    let st2 := { st1 with evLog := st1.evLog ++ [Ev.invoked l.lid kind arg] }
    if l.fails then (some (Err.listener l.lid), st2) else emitGo eid kind arg rest st2

/-- Model of `hook.emit(kind, arg)`. -/
def emit (eid : Nat) (kind : HookKind) (arg : Option Err) (st : St) : Option Err × St :=
  emitGo eid kind arg (getKindList eid kind st) st

/-- Model of `hook.removeAllListeners()`. -/
def removeAllListeners (eid : Nat) (st : St) : St :=
  setEmitter eid Hooks.empty st

def HOOK_CONTEXT_KEY : String := "@drizzle-transactional/hook"
def CURRENT_TRANSACTION_KEY : String := "@drizzle-transactional/current-transaction"
def CURRENT_DB_ID_KEY : String := "@drizzle-transactional/current-db-id"

/-- Model of `createEventEmitterInContext`: allocate a fresh emitter and
install its id in the current store via `setContextValue` (the
`maxHookHandlers` warning threshold does not change behaviour and is
elided).  Returns the emitter id, the mutated store and the state. -/
def createEventEmitterInContext (amb : Option Ctx) (st : St) : Nat × Option Ctx × St :=
  let eid := st.nextEmitter
  (eid, setContextValue HOOK_CONTEXT_KEY (CtxVal.nat eid) amb,
    { st with emitters := setA eid Hooks.empty st.emitters,
              nextEmitter := eid + 1,
              evLog := st.evLog ++ [Ev.hookCreated eid] })

/-- Model of `getTransactionalContextHook`: the emitter id bound in the
ambient store, `CONTEXT_NO_CONTEXT` outside any scope and
`CONTEXT_NO_HOOK` when no emitter was installed. -/
def getTransactionalContextHook (amb : Option Ctx) : Except Err Nat :=
  if hasActiveContext amb then
    match getContextValue HOOK_CONTEXT_KEY amb with
    | some (CtxVal.nat eid) => Except.ok eid
    | _ => Except.error (Err.contextErr "NO_HOOK")
  else Except.error (Err.contextErr "NO_CONTEXT")

/-- Model of the `catch` block of `runAndTriggerHooks`: emit `rollback`
then `end` with the error and clear the listeners, rethrowing the
original error; an error thrown inside one of these emits propagates
immediately, skipping the rest of the block. -/
def catchPhase (eid : Nat) (e : Err) (amb : Option Ctx) (st : St) : Out :=
  match emit eid HookKind.rollback (some e) st with
  | (some e2, st1) => ⟨Except.error e2, amb, st1⟩
  | (none, st1) =>
    match emit eid HookKind.endK (some e) st1 with
    | (some e3, st2) => ⟨Except.error e3, amb, st2⟩
    | (none, st2) => ⟨Except.error e, amb, removeAllListeners eid st2⟩

/-- Model of `runAndTriggerHooks`: run the callback; on success emit
`commit` then `end` (no error) and clear the listeners; on failure run
the catch block.  The emits of the success path sit inside the `try`,
so an error thrown by a commit or end listener falls into the catch
block with that error. -/
def runAndTriggerHooks (eid : Nat) (cb : Option Ctx → St → Out)
    (amb : Option Ctx) (st : St) : Out :=
  let o := cb amb st
  match o.res with
  | Except.ok _ =>
    match emit eid HookKind.commit none o.st with
    | (some e1, st1) => catchPhase eid e1 o.amb st1
    | (none, st1) =>
      match emit eid HookKind.endK none st1 with
      | (some e2, st2) => catchPhase eid e2 o.amb st2
      | (none, st2) => ⟨Except.ok (), o.amb, removeAllListeners eid st2⟩
  | Except.error e => catchPhase eid e o.amb o.st

/-! ## Database registry and handle resolver (`src/drizzle/database-manager.ts`) -/

/-- Model of `addTransactionalDrizzleDatabase` on the registered
database map (name to base-handle id): duplicate names are rejected with
`DATABASE_ALREADY_REGISTERED`. -/
def addTransactionalDrizzleDatabase (database : Nat) (name : String)
    (reg : List (String × Nat)) : Except Err (List (String × Nat)) :=
  match getA name reg with
  | some _ => Except.error (Err.databaseAlreadyRegistered name)
  | none => Except.ok (setA name database reg)

/-- Model of `removeDrizzleDatabaseByName`: `Map.delete` returns whether
the name was registered, and removes the (unique) entry. -/
def removeDrizzleDatabaseByName (name : String) (reg : List (String × Nat)) :
    Bool × List (String × Nat) :=
  ((getA name reg).isSome, eraseA name reg)

/-- The result of the handle resolver: the transaction handle id when
the resolver picked the transaction database, otherwise the base
handle of the named database. -/
structure DbInfo where
  txId : Option Nat
  isTransacting : Bool
deriving DecidableEq, Repr

/-- Model of `getCurrentDatabaseInfo`: fails when the name is not
registered; picks the transaction handle whenever the ambient store
carries a current-db-id (the in-transaction flag is not consulted), and
raises the internal-consistency error when that id has no registered
transaction handle. -/
def getCurrentDatabaseInfo (name : String) (amb : Option Ctx) (st : St) :
    Except Err DbInfo :=
  match getA name st.regDbs with
  | none => Except.error (Err.databaseNotFound name)
  | some _ =>
    match getContextValue CURRENT_DB_ID_KEY amb with
    | some (CtxVal.nat id) =>
      if st.txReg.contains id then Except.ok ⟨some id, true⟩
      else Except.error (Err.noTransactionDatabaseForId id)
    | _ => Except.ok ⟨none, false⟩

/-- Model of `runInDatabaseTransaction`: resolve the base handle,
draw a fresh transaction id, open a driver transaction (a fresh write
buffer), register the transaction handle, run the callback inside a
scope binding the current-db-id, unregister the handle in the `finally`
(on the success and on the failure path), then let the driver commit
(append the buffer to the persisted writes) or roll back (discard the
buffer), rethrowing the callback error. -/
def runInDatabaseTransaction (databaseName : String)
    (cb : Option Ctx → St → Out) (amb : Option Ctx) (st : St) : Out :=
  match getA databaseName st.regDbs with
  | none => ⟨Except.error (Err.databaseNotFound databaseName), amb, st⟩
  | some _ =>
    let txId := st.nextTx
    let st1 : St :=
      { st with nextTx := txId + 1,
                openTx := setA txId [] st.openTx,
                txReg := txId :: st.txReg,
                evLog := st.evLog ++ [Ev.txBegin txId] }
    let o := cb (some (mergeCtx amb [(CURRENT_DB_ID_KEY, CtxVal.nat txId)])) st1
    let st2 : St := { o.st with txReg := o.st.txReg.erase txId }
    match o.res with
    | Except.ok _ =>
      let buf := (getA txId st2.openTx).getD []
      ⟨Except.ok (), amb,
        { st2 with openTx := eraseA txId st2.openTx,
                   persisted := st2.persisted ++ buf,
                   evLog := st2.evLog ++ [Ev.txCommit txId] }⟩
    | Except.error e =>
      ⟨Except.error e, amb,
        { st2 with openTx := eraseA txId st2.openTx,
                   evLog := st2.evLog ++ [Ev.txRollback txId] }⟩

/-! ## Propagation engine (`src/transactions/wrap-in-transaction.ts`) -/

/-- The seven keys of the `propagationHandlers` object.  A propagation
value outside this table makes `executeWithPropagation` raise
`PROPAGATION_UNKNOWN`. -/
inductive HandlerTag where
  | mandatory | nested | never | notSupported | required | requiresNew | supports
deriving DecidableEq, Repr

def propagationHandlers : List (String × HandlerTag) :=
  [("MANDATORY", HandlerTag.mandatory),
   ("NESTED", HandlerTag.nested),
   ("NEVER", HandlerTag.never),
   ("NOT_SUPPORTED", HandlerTag.notSupported),
   ("REQUIRED", HandlerTag.required),
   ("REQUIRES_NEW", HandlerTag.requiresNew),
   ("SUPPORTS", HandlerTag.supports)]

/-- The ambient in-transaction flag as the handlers receive it:
`getContextValue(CURRENT_TRANSACTION_KEY) ?? false`. -/
def readTxFlag (amb : Option Ctx) : Bool :=
  match getContextValue CURRENT_TRANSACTION_KEY amb with
  | some (CtxVal.bool b) => b
  | _ => false

/-- Model of `executeWithPropagation` plus the four runner closures of
the `wrapper`: `runOriginal` is the wrapped operation itself (the
`runBody` argument), `runWithNewHook` installs a fresh hook scope and
settles it around the operation, `runWithNewTransaction` additionally
runs the operation through `runInDatabaseTransaction` inside a scope
binding the in-transaction flag.  The suspension branches wrap their
runner in `runWithContext` with the flag bound to `false`, the prior
store becoming current again afterwards. -/
def executeWithPropagation (prop : String) (databaseName : String)
    (runBody : Option Ctx → St → Out) (amb : Option Ctx) (st : St) : Out :=
  let currentTransaction := readTxFlag amb
  let runWithNewHook : Option Ctx → St → Out := fun a s =>
    let c := createEventEmitterInContext a s
    runAndTriggerHooks c.1 runBody c.2.1 c.2.2
  let runWithNewTransaction : Option Ctx → St → Out := fun a s =>
    let c := createEventEmitterInContext a s
    runAndTriggerHooks c.1
      (fun a2 s2 => runInDatabaseTransaction databaseName
        (fun a3 s3 =>
          let o := runBody (some (mergeCtx a3 [(CURRENT_TRANSACTION_KEY, CtxVal.bool true)])) s3
          ⟨o.res, a3, o.st⟩)
        a2 s2)
      c.2.1 c.2.2
  match getA prop propagationHandlers with
  | none => ⟨Except.error (Err.unknownPropagation prop), amb, st⟩
  | some HandlerTag.mandatory =>
    if currentTransaction then runBody amb st
    else ⟨Except.error (Err.propagation "MANDATORY"), amb, st⟩
  | some HandlerTag.nested => runWithNewTransaction amb st
  | some HandlerTag.never =>
    if currentTransaction then ⟨Except.error (Err.propagation "NEVER"), amb, st⟩
    else runWithNewHook amb st
  | some HandlerTag.notSupported =>
    if currentTransaction then
      let o := runWithNewHook
        (some (mergeCtx amb [(CURRENT_TRANSACTION_KEY, CtxVal.bool false)])) st
      ⟨o.res, amb, o.st⟩
    else runBody amb st
  | some HandlerTag.required =>
    if currentTransaction then runBody amb st else runWithNewTransaction amb st
  | some HandlerTag.requiresNew =>
    if currentTransaction then
      let o := runWithNewHook
        (some (mergeCtx amb [(CURRENT_TRANSACTION_KEY, CtxVal.bool false)]))
        { st with evLog := st.evLog ++ [Ev.warned] }
      ⟨o.res, amb, o.st⟩
    else runWithNewTransaction amb st
  | some HandlerTag.supports =>
    if currentTransaction then runBody amb st else runWithNewHook amb st

/-- Model of the `wrapper` returned by `wrapInTransaction`: reject when
the library was not set up, default the database name and the
propagation, enter a fresh top-level scope when no ambient scope exists,
and dispatch on the propagation policy. -/
def wrapInTransaction (propagation : Option String) (databaseName : Option String)
    (runBody : Option Ctx → St → Out) (amb : Option Ctx) (st : St) : Out :=
  if st.initialized = false then ⟨Except.error Err.notInitialized, amb, st⟩
  else
    let p := propagation.getD "REQUIRED"
    let dbName := databaseName.getD "default"
    if hasActiveContext amb then executeWithPropagation p dbName runBody amb st
    else
      let o := executeWithPropagation p dbName runBody (some (mergeCtx none [])) st
      ⟨o.res, amb, o.st⟩

/-! ## Wrapped business operations -/

/-- Declared options of one wrapped operation. -/
structure TxOptions where
  databaseName : Option String := none
  propagation : Option String := none
deriving DecidableEq, Repr

/-- A business operation as seen by the engine: terminate or throw,
write through the context-aware database proxy, register hook
listeners, invoke a nested wrapped operation, or swallow the failure of
a sub-computation (`try`/`catch` in user code). -/
inductive Prog where
  | ret : Prog
  | throwErr : String → Prog
  | dbWrite : String → Nat → Prog → Prog
  | onCommit : Listener → Prog → Prog
  | onRollback : Listener → Prog → Prog
  | onComplete : Listener → Prog → Prog
  | call : TxOptions → Prog → Prog → Prog
  | tryIgnore : Prog → Prog → Prog
deriving DecidableEq, Repr

/-- Fuel-indexed interpreter for wrapped operations.  `dbWrite` resolves
its target through `getCurrentDatabaseInfo` exactly as the transactional
database proxy does; `call` invokes the full wrapper. -/
def exec : Nat → Prog → Option Ctx → St → Out
  | 0, _, amb, st => ⟨Except.error Err.fuel, amb, st⟩
  | Nat.succ n, p, amb, st =>
    match p with
    | Prog.ret => ⟨Except.ok (), amb, st⟩
    | Prog.throwErr m => ⟨Except.error (Err.user m), amb, st⟩
    | Prog.dbWrite name w k =>
      match getCurrentDatabaseInfo name amb st with
      | Except.error e => ⟨Except.error e, amb, st⟩
      | Except.ok info =>
        match info.txId with
        | some id =>
          exec n k amb
            { st with openTx := setA id ((getA id st.openTx).getD [] ++ [(name, w)]) st.openTx,
                      evLog := st.evLog ++ [Ev.wrote (some id) name w] }
        | none =>
          exec n k amb
            { st with persisted := st.persisted ++ [(name, w)],
                      evLog := st.evLog ++ [Ev.wrote none name w] }
    | Prog.onCommit l k =>
      match getTransactionalContextHook amb with
      | Except.error e => ⟨Except.error e, amb, st⟩
      | Except.ok eid => exec n k amb (addListener eid HookKind.commit l st)
    | Prog.onRollback l k =>
      match getTransactionalContextHook amb with
      | Except.error e => ⟨Except.error e, amb, st⟩
      | Except.ok eid => exec n k amb (addListener eid HookKind.rollback l st)
    | Prog.onComplete l k =>
      match getTransactionalContextHook amb with
      | Except.error e => ⟨Except.error e, amb, st⟩
      | Except.ok eid => exec n k amb (addListener eid HookKind.endK l st)
    | Prog.call opts body k =>
      let o := wrapInTransaction opts.propagation opts.databaseName
        (fun a s => exec n body a s) amb st
      match o.res with
      | Except.ok _ => exec n k o.amb o.st
      | Except.error e => ⟨Except.error e, o.amb, o.st⟩
    | Prog.tryIgnore sub k =>
      let o := exec n sub amb st
      exec n k o.amb o.st

/-! ## Concrete scenarios -/

/-- Start state: library set up, one database registered under
`default`, nothing running. -/
def stInit : St :=
  { initialized := true, regDbs := [("default", 0)], txReg := [], openTx := [],
    persisted := [], emitters := [], evLog := [], nextTx := 0, nextEmitter := 0 }

/-- An operation declared REQUIRES_NEW that writes and then throws. -/
def reqNewInner : Prog :=
  Prog.call { propagation := some "REQUIRES_NEW" }
    (Prog.dbWrite "default" 2 (Prog.throwErr "inner-fails")) Prog.ret

/-- The same operation declared NESTED. -/
def nestedInner : Prog :=
  Prog.call { propagation := some "NESTED" }
    (Prog.dbWrite "default" 2 (Prog.throwErr "inner-fails")) Prog.ret

/-- Outer REQUIRED operation: write, invoke `inner`, swallow its
failure and succeed. -/
def outerWith (inner : Prog) : Prog :=
  Prog.call { propagation := some "REQUIRED" }
    (Prog.dbWrite "default" 1 (Prog.tryIgnore inner Prog.ret)) Prog.ret

/-- A REQUIRED transaction that writes, runs a NOT_SUPPORTED sub-scope
performing a second write, then fails. -/
def notSupportedProg : Prog :=
  Prog.call { propagation := some "REQUIRED" }
    (Prog.dbWrite "default" 1
      (Prog.call { propagation := some "NOT_SUPPORTED" }
        (Prog.dbWrite "default" 2 Prog.ret)
        (Prog.throwErr "outer-fails")))
    Prog.ret

/-- A successful transaction whose first commit listener throws, with a
second commit listener and a rollback listener registered. -/
def throwingCommitHookProg : Prog :=
  Prog.call { propagation := some "REQUIRED" }
    (Prog.onCommit ⟨1, true⟩ (Prog.onCommit ⟨2, false⟩ (Prog.onRollback ⟨3, false⟩ Prog.ret)))
    Prog.ret

/-- A successful transaction with a throwing commit listener, a second
commit listener and an end listener. -/
def throwingCommitEndProg : Prog :=
  Prog.call { propagation := some "REQUIRED" }
    (Prog.onCommit ⟨1, true⟩ (Prog.onCommit ⟨2, false⟩ (Prog.onComplete ⟨4, false⟩ Prog.ret)))
    Prog.ret

/-- Nested REQUIRED calls whose commit listeners include a throwing
one before a later one. -/
def nestedRequiredThrowingHookProg : Prog :=
  Prog.call { propagation := some "REQUIRED" }
    (Prog.onCommit ⟨1, true⟩
      (Prog.call { propagation := some "REQUIRED" } (Prog.onCommit ⟨2, false⟩ Prog.ret) Prog.ret))
    Prog.ret

/-- Number of driver transactions opened in a log. -/
def txBeginCount (log : List Ev) : Nat :=
  (log.filter (fun e => match e with | Ev.txBegin _ => true | _ => false)).length

/-- Number of hook scopes created in a log. -/
def hookCreatedCount (log : List Ev) : Nat :=
  (log.filter (fun e => match e with | Ev.hookCreated _ => true | _ => false)).length

/-- The commit listener invocations of a log, in order. -/
def commitInvocations (log : List Ev) : List Nat :=
  log.filterMap (fun e => match e with
    | Ev.invoked l HookKind.commit _ => some l
    | _ => none)

/-! ## Registry lemmas (for the register-remove-register claim) -/

theorem getA_eq_none_of_not_mem {κ α : Type} [DecidableEq κ] {k : κ} :
    ∀ {m : List (κ × α)}, k ∉ m.map Prod.fst → getA k m = none := by
  intro m
  induction m with
  | nil => intro _; rfl
  | cons hd tl ih =>
    intro h
    obtain ⟨k2, v2⟩ := hd
    simp only [List.map_cons, List.mem_cons] at h
    push_neg at h
    have hne : k2 ≠ k := fun hk => h.1 hk.symm
    simp [getA, hne, ih h.2]

theorem getA_eraseA_of_nodup {κ α : Type} [DecidableEq κ] {k : κ} :
    ∀ {m : List (κ × α)}, (m.map Prod.fst).Nodup → getA k (eraseA k m) = none := by
  intro m
  induction m with
  | nil => intro _; rfl
  | cons hd tl ih =>
    intro h
    obtain ⟨k2, v2⟩ := hd
    simp only [List.map_cons, List.nodup_cons] at h
    by_cases hk : k2 = k
    · subst hk
      simpa [eraseA] using getA_eq_none_of_not_mem h.1
    · simpa [eraseA, hk, getA] using ih h.2

theorem getA_isSome_iff_mem {κ α : Type} [DecidableEq κ] {k : κ} :
    ∀ {m : List (κ × α)}, (getA k m).isSome = true ↔ k ∈ m.map Prod.fst := by
  intro m
  induction m with
  | nil => simp [getA]
  | cons hd tl ih =>
    obtain ⟨k2, v2⟩ := hd
    by_cases hk : k2 = k
    · subst hk; simp [getA]
    · have hne : ¬k = k2 := fun h => hk h.symm
      simp [getA, hk, ih, hne]

/-! ## Handler-table facts -/

theorem handlers_mandatory :
    getA "MANDATORY" propagationHandlers = some HandlerTag.mandatory := by decide

theorem handlers_never :
    getA "NEVER" propagationHandlers = some HandlerTag.never := by decide

theorem handlers_required :
    getA "REQUIRED" propagationHandlers = some HandlerTag.required := by decide

/-! ## Claim C10 -/

/-- Claim C10: database registration is reversible despite the
duplicate-registration error — removal reports whether the name was
registered, and a register-remove-register round-trip succeeds without
the already-registered error (the registry map has unique keys). -/
theorem c10_register_remove_register (name : String) (db : Nat)
    (reg : List (String × Nat)) (h : (reg.map Prod.fst).Nodup) :
    ((removeDrizzleDatabaseByName name reg).1 = true ↔ name ∈ reg.map Prod.fst) ∧
    addTransactionalDrizzleDatabase db name (removeDrizzleDatabaseByName name reg).2 =
      Except.ok (setA name db (eraseA name reg)) := by
  constructor
  · simpa [removeDrizzleDatabaseByName] using getA_isSome_iff_mem
  · simp [removeDrizzleDatabaseByName, addTransactionalDrizzleDatabase,
      getA_eraseA_of_nodup h]

/-- Witness for C10 at a concrete one-entry registry. -/
theorem c10_register_remove_register_witness :
    (([("default", 0)] : List (String × Nat)).map Prod.fst).Nodup ∧
    (((removeDrizzleDatabaseByName "default" [("default", 0)]).1 = true ↔
        "default" ∈ ([("default", 0)] : List (String × Nat)).map Prod.fst) ∧
      addTransactionalDrizzleDatabase 1 "default"
          (removeDrizzleDatabaseByName "default" [("default", 0)]).2 =
        Except.ok (setA "default" 1 (eraseA "default" [("default", 0)]))) :=
  ⟨by decide, c10_register_remove_register "default" 1 [("default", 0)] (by decide)⟩

/-! ## Claim C9 -/

/-- Claim C9: bindings set inside a nested context-carrier scope —
whether through the entry bindings or through within-scope writes — are
invisible once the nested call returns, and exiting the child scope
never mutates the parent store: the prior ambient store is current
again on the success path and on the failure path, for every client
program run inside the scope. -/
theorem c9_nested_scope_isolation (n : Nat) (b : List (String × CtxVal))
    (sub : CProg) (amb : Option Ctx) :
    (cexec (Nat.succ n) (CProg.enterScope b sub CProg.ret) amb).2 = amb := by
  simp only [cexec]
  cases h : (cexec n sub (some (mergeCtx amb b))).1 with
  | ok _ => cases n <;> simp [cexec, h]
  | error e => simp [h]

/-! ## Claim C7 -/

/-- Claim C7: MANDATORY with no ambient transaction, NEVER inside an
ambient transaction, and an unrecognized propagation value each fail
synchronously with the corresponding propagation error, leaving the
ambient store and the entire engine state untouched — no database call
and no transaction or registry change. -/
theorem c7_propagation_violations_fail_eagerly :
    (∀ (body : Option Ctx → St → Out) (db : Option String) (amb : Option Ctx) (st : St),
      st.initialized = true → readTxFlag amb = false →
      wrapInTransaction (some "MANDATORY") db body amb st =
        ⟨Except.error (Err.propagation "MANDATORY"), amb, st⟩) ∧
    (∀ (body : Option Ctx → St → Out) (db : Option String) (amb : Option Ctx) (st : St),
      st.initialized = true → readTxFlag amb = true →
      wrapInTransaction (some "NEVER") db body amb st =
        ⟨Except.error (Err.propagation "NEVER"), amb, st⟩) ∧
    (∀ (body : Option Ctx → St → Out) (db : Option String) (amb : Option Ctx) (st : St)
      (p : String),
      st.initialized = true → getA p propagationHandlers = none →
      wrapInTransaction (some p) db body amb st =
        ⟨Except.error (Err.unknownPropagation p), amb, st⟩) := by
  refine ⟨?_, ?_, ?_⟩
  · intro body db amb st hini hflag
    cases amb with
    | none =>
      simp [wrapInTransaction, hini, hasActiveContext, executeWithPropagation,
        handlers_mandatory, readTxFlag, getContextValue, mergeCtx]
    | some c =>
      simp [wrapInTransaction, hini, hasActiveContext, executeWithPropagation,
        handlers_mandatory, hflag]
  · intro body db amb st hini hflag
    cases amb with
    | none => simp [readTxFlag, getContextValue] at hflag
    | some c =>
      simp [wrapInTransaction, hini, hasActiveContext, executeWithPropagation,
        handlers_never, hflag]
  · intro body db amb st p hini hlook
    cases amb with
    | none =>
      simp [wrapInTransaction, hini, hasActiveContext, executeWithPropagation, hlook]
    | some c =>
      simp [wrapInTransaction, hini, hasActiveContext, executeWithPropagation, hlook]

/-- Witness for C7: each of the three violations at concrete inputs. -/
theorem c7_propagation_violations_fail_eagerly_witness :
    (stInit.initialized = true ∧ readTxFlag none = false ∧
      wrapInTransaction (some "MANDATORY") none (fun a s => ⟨Except.ok (), a, s⟩) none stInit =
        ⟨Except.error (Err.propagation "MANDATORY"), none, stInit⟩) ∧
    (readTxFlag (some [(CURRENT_TRANSACTION_KEY, CtxVal.bool true)]) = true ∧
      wrapInTransaction (some "NEVER") none (fun a s => ⟨Except.ok (), a, s⟩)
          (some [(CURRENT_TRANSACTION_KEY, CtxVal.bool true)]) stInit =
        ⟨Except.error (Err.propagation "NEVER"),
          some [(CURRENT_TRANSACTION_KEY, CtxVal.bool true)], stInit⟩) ∧
    (getA "BOGUS" propagationHandlers = none ∧
      wrapInTransaction (some "BOGUS") none (fun a s => ⟨Except.ok (), a, s⟩) none stInit =
        ⟨Except.error (Err.unknownPropagation "BOGUS"), none, stInit⟩) :=
  ⟨⟨rfl, rfl,
      c7_propagation_violations_fail_eagerly.1 (fun a s => ⟨Except.ok (), a, s⟩) none none stInit
        rfl rfl⟩,
    ⟨by decide,
      c7_propagation_violations_fail_eagerly.2.1 (fun a s => ⟨Except.ok (), a, s⟩) none
        (some [(CURRENT_TRANSACTION_KEY, CtxVal.bool true)]) stInit rfl (by decide)⟩,
    ⟨by decide,
      c7_propagation_violations_fail_eagerly.2.2 (fun a s => ⟨Except.ok (), a, s⟩) none none
        stInit "BOGUS" rfl (by decide)⟩⟩

/-! ## Claim C1 -/

/-- Claim C1 (evidence at the failing input): a REQUIRES_NEW operation
invoked while an ambient transaction is open does not go through
`runInDatabaseTransaction` — only one driver transaction is ever begun
and the suspension warning is logged — and because the handle resolver
still sees the outer current-db-id, the failing inner operation's write
lands in the outer transaction and persists when the outer transaction
commits. -/
theorem c1_requires_new_inside_transaction_runs_without_transaction :
    (exec 20 (outerWith reqNewInner) none stInit).res = Except.ok () ∧
    txBeginCount (exec 20 (outerWith reqNewInner) none stInit).st.evLog = 1 ∧
    Ev.warned ∈ (exec 20 (outerWith reqNewInner) none stInit).st.evLog ∧
    (exec 20 (outerWith reqNewInner) none stInit).st.persisted =
      [("default", 1), ("default", 2)] := by
  refine ⟨rfl, by decide, by decide, by decide⟩

/-! ## Claim C2 -/

/-- Claim C2 (evidence at the failing input): inside a NOT_SUPPORTED
sub-scope entered from within a transaction, the handle resolver keeps
returning the suspended transaction's handle (the write is recorded
against transaction 0), because `getCurrentDatabaseInfo` consults only
the current-db-id key and never the in-transaction flag; consequently
the "suspended" write is rolled back together with the outer
transaction instead of persisting through the base handle. -/
theorem c2_resolver_ignores_suspension :
    (exec 20 notSupportedProg none stInit).res = Except.error (Err.user "outer-fails") ∧
    Ev.wrote (some 0) "default" 2 ∈ (exec 20 notSupportedProg none stInit).st.evLog ∧
    (exec 20 notSupportedProg none stInit).st.persisted = [] := by
  refine ⟨rfl, by decide, by decide⟩

/-! ## Claim C3 -/

/-- Claim C3 (evidence at the failing input): hook-listener errors are
not caught by `runAndTriggerHooks`.  In a transaction that settles
successfully and commits (txCommit 0 is logged), the first commit
listener throws; the second commit listener is never invoked, the
rollback listener fires even though the transaction committed, and the
wrapped call rejects with the listener error instead of returning the
operation's result. -/
theorem c3_listener_errors_are_not_isolated :
    (exec 20 throwingCommitHookProg none stInit).res = Except.error (Err.listener 1) ∧
    (exec 20 throwingCommitHookProg none stInit).st.evLog =
      [Ev.hookCreated 0, Ev.txBegin 0, Ev.txCommit 0,
        Ev.invoked 1 HookKind.commit none,
        Ev.invoked 3 HookKind.rollback (some (Err.listener 1))] := by
  refine ⟨rfl, by decide⟩

/-! ## Claim C4 -/

/-- Claim C4 (evidence at the failing input): with an ambient
transaction open, NESTED and REQUIRES_NEW are not equivalent.  NESTED
goes through `runInDatabaseTransaction` (a second driver transaction is
begun and the failing inner write is rolled back), while REQUIRES_NEW
suspends and runs without a transaction (one driver transaction, the
inner write persists with the outer commit); the two executions differ
in their persisted writes. -/
theorem c4_nested_and_requires_new_differ_inside_transaction :
    txBeginCount (exec 20 (outerWith nestedInner) none stInit).st.evLog = 2 ∧
    (exec 20 (outerWith nestedInner) none stInit).st.persisted = [("default", 1)] ∧
    txBeginCount (exec 20 (outerWith reqNewInner) none stInit).st.evLog = 1 ∧
    (exec 20 (outerWith reqNewInner) none stInit).st.persisted =
      [("default", 1), ("default", 2)] ∧
    (exec 20 (outerWith nestedInner) none stInit).st.persisted ≠
      (exec 20 (outerWith reqNewInner) none stInit).st.persisted := by
  refine ⟨by decide, by decide, by decide, by decide, by decide⟩

/-! ## Emitter lemmas -/

@[simp] theorem getEmitter_setEmitter_self (eid : Nat) (h : Hooks) (st : St) :
    getEmitter eid (setEmitter eid h st) = h := by
  simp [getEmitter, setEmitter]

@[simp] theorem setKindList_evLog (eid : Nat) (k : HookKind) (ls : List Listener) (st : St) :
    (setKindList eid k ls st).evLog = st.evLog := by
  cases k <;> rfl

theorem getKindList_congr (eid : Nat) (k : HookKind) (st st2 : St)
    (h : st2.emitters = st.emitters) : getKindList eid k st2 = getKindList eid k st := by
  cases k <;> simp [getKindList, getEmitter, h]

theorem getKindList_setKindList_ne (eid : Nat) {k1 k2 : HookKind} (ls : List Listener)
    (st : St) (h : k2 ≠ k1) :
    getKindList eid k2 (setKindList eid k1 ls st) = getKindList eid k2 st := by
  cases k1 <;> cases k2 <;>
    simp_all [getKindList, setKindList, getEmitter, setEmitter]

theorem getKindList_setKindList_self (eid : Nat) (k : HookKind) (ls : List Listener) (st : St) :
    getKindList eid k (setKindList eid k ls st) = ls := by
  cases k <;> simp [getKindList, setKindList, getEmitter, setEmitter]

/-- Emitting over listeners that all succeed: no error, one invocation
logged per listener in registration order, and the other event kinds of
the emitter are untouched. -/
theorem emitGo_ok (eid : Nat) (kind : HookKind) (arg : Option Err) :
    ∀ (ls : List Listener) (st : St), (∀ l ∈ ls, l.fails = false) →
      (emitGo eid kind arg ls st).1 = none ∧
      (emitGo eid kind arg ls st).2.evLog =
        st.evLog ++ ls.map (fun l => Ev.invoked l.lid kind arg) ∧
      (∀ k2, k2 ≠ kind →
        getKindList eid k2 (emitGo eid kind arg ls st).2 = getKindList eid k2 st) := by
  intro ls
  induction ls with
  | nil => intro st _; simp [emitGo]
  | cons l rest ih =>
    intro st h
    have hl : l.fails = false := h l (by simp)
    have hrest : ∀ x ∈ rest, x.fails = false := fun x hx => h x (by simp [hx])
    have step := ih ({ setKindList eid kind rest st with
      evLog := (setKindList eid kind rest st).evLog ++ [Ev.invoked l.lid kind arg] }) hrest
    refine ⟨?_, ?_, ?_⟩
    · simpa [emitGo, hl] using step.1
    · have := step.2.1
      simp only [setKindList_evLog] at this
      simpa [emitGo, hl, List.append_assoc] using this
    · intro k2 hk2
      have h1 := step.2.2 k2 hk2
      have e1 : getKindList eid k2
          ({ setKindList eid kind rest st with
            evLog := (setKindList eid kind rest st).evLog ++ [Ev.invoked l.lid kind arg] } : St) =
          getKindList eid k2 st := by
        rw [getKindList_congr eid k2 (setKindList eid kind rest st)
            ({ setKindList eid kind rest st with
              evLog := (setKindList eid kind rest st).evLog ++ [Ev.invoked l.lid kind arg] } : St)
            rfl]
        exact getKindList_setKindList_ne eid rest st hk2
      rw [e1] at h1
      simpa [emitGo, hl] using h1

/-- The `emit` version of `emitGo_ok`. -/
theorem emit_ok (eid : Nat) (kind : HookKind) (arg : Option Err) (st : St)
    (ls : List Listener) (hls : getKindList eid kind st = ls)
    (hok : ∀ l ∈ ls, l.fails = false) :
    (emit eid kind arg st).1 = none ∧
    (emit eid kind arg st).2.evLog =
      st.evLog ++ ls.map (fun l => Ev.invoked l.lid kind arg) ∧
    (∀ k2, k2 ≠ kind →
      getKindList eid k2 (emit eid kind arg st).2 = getKindList eid k2 st) := by
  have := emitGo_ok eid kind arg ls st hok
  simpa [emit, hls] using this

@[simp] theorem getEmitter_removeAllListeners (eid : Nat) (st : St) :
    getEmitter eid (removeAllListeners eid st) = Hooks.empty := by
  simp [removeAllListeners]

@[simp] theorem removeAllListeners_evLog (eid : Nat) (st : St) :
    (removeAllListeners eid st).evLog = st.evLog := rfl

/-- The catch block with well-behaved rollback and end listeners:
rollback listeners fire in order with the error, then end listeners
with the error, the listener lists are cleared and the original error
is rethrown. -/
theorem catchPhase_ok (eid : Nat) (e : Err) (amb : Option Ctx) (st : St)
    (R E : List Listener)
    (hR : getKindList eid HookKind.rollback st = R)
    (hE : getKindList eid HookKind.endK st = E)
    (hRok : ∀ l ∈ R, l.fails = false) (hEok : ∀ l ∈ E, l.fails = false) :
    (catchPhase eid e amb st).res = Except.error e ∧
    (catchPhase eid e amb st).amb = amb ∧
    (catchPhase eid e amb st).st.evLog =
      st.evLog ++ R.map (fun l => Ev.invoked l.lid HookKind.rollback (some e))
        ++ E.map (fun l => Ev.invoked l.lid HookKind.endK (some e)) ∧
    getEmitter eid (catchPhase eid e amb st).st = Hooks.empty := by
  have h1 := emit_ok eid HookKind.rollback (some e) st R hR hRok
  have hE2 : getKindList eid HookKind.endK (emit eid HookKind.rollback (some e) st).2 = E := by
    rw [h1.2.2 HookKind.endK (by simp), hE]
  have h2 := emit_ok eid HookKind.endK (some e)
    (emit eid HookKind.rollback (some e) st).2 E hE2 hEok
  rcases hp1 : emit eid HookKind.rollback (some e) st with ⟨r1, st1⟩
  rw [hp1] at h1 h2
  dsimp only at h1 h2
  rcases hp2 : emit eid HookKind.endK (some e) st1 with ⟨r2, st2⟩
  rw [hp2] at h2
  dsimp only at h2
  obtain ⟨hr1, hlog1, -⟩ := h1
  obtain ⟨hr2, hlog2, -⟩ := h2
  subst hr1
  subst hr2
  simp [catchPhase, hp1, hp2, hlog1, hlog2, List.append_assoc]

/-! ## Claim C6 -/

/-- Claim C6 (counterexample): a hook scope whose wrapped operation
settles successfully (the driver commit is logged) but whose first
commit listener throws: the second commit listener is never invoked and
the end listener receives the listener error instead of no error, so
the claimed firing sequence fails as stated. -/
theorem c6_counterexample_throwing_listener :
    (exec 20 throwingCommitEndProg none stInit).res = Except.error (Err.listener 1) ∧
    (exec 20 throwingCommitEndProg none stInit).st.evLog =
      [Ev.hookCreated 0, Ev.txBegin 0, Ev.txCommit 0,
        Ev.invoked 1 HookKind.commit none,
        Ev.invoked 4 HookKind.endK (some (Err.listener 1))] :=
  ⟨rfl, by decide⟩

/-- Claim C6 (amended: provided no registered listener throws): when
the wrapped operation settles successfully, all commit listeners fire
in registration order and then all end listeners fire with no error;
when it settles with a failure, all rollback listeners fire in
registration order with the error and then all end listeners fire with
the error; in either branch the listener lists are cleared afterwards,
so each event kind fires at most once per scope. -/
theorem c6_hook_firing_order (eid : Nat) (cb : Option Ctx → St → Out) (amb : Option Ctx)
    (st : St) (C R E : List Listener)
    (hC : getKindList eid HookKind.commit (cb amb st).st = C)
    (hR : getKindList eid HookKind.rollback (cb amb st).st = R)
    (hE : getKindList eid HookKind.endK (cb amb st).st = E)
    (hCok : ∀ l ∈ C, l.fails = false)
    (hRok : ∀ l ∈ R, l.fails = false)
    (hEok : ∀ l ∈ E, l.fails = false) :
    (∀ u : Unit, (cb amb st).res = Except.ok u →
      (runAndTriggerHooks eid cb amb st).res = Except.ok () ∧
      (runAndTriggerHooks eid cb amb st).st.evLog =
        (cb amb st).st.evLog ++ C.map (fun l => Ev.invoked l.lid HookKind.commit none)
          ++ E.map (fun l => Ev.invoked l.lid HookKind.endK none) ∧
      getEmitter eid (runAndTriggerHooks eid cb amb st).st = Hooks.empty) ∧
    (∀ e : Err, (cb amb st).res = Except.error e →
      (runAndTriggerHooks eid cb amb st).res = Except.error e ∧
      (runAndTriggerHooks eid cb amb st).st.evLog =
        (cb amb st).st.evLog ++ R.map (fun l => Ev.invoked l.lid HookKind.rollback (some e))
          ++ E.map (fun l => Ev.invoked l.lid HookKind.endK (some e)) ∧
      getEmitter eid (runAndTriggerHooks eid cb amb st).st = Hooks.empty) := by
  constructor
  · intro u hres
    have h1 := emit_ok eid HookKind.commit none (cb amb st).st C hC hCok
    have hE2 : getKindList eid HookKind.endK (emit eid HookKind.commit none (cb amb st).st).2 =
        E := by
      rw [h1.2.2 HookKind.endK (by simp), hE]
    have h2 := emit_ok eid HookKind.endK none
      (emit eid HookKind.commit none (cb amb st).st).2 E hE2 hEok
    rcases hp1 : emit eid HookKind.commit none (cb amb st).st with ⟨r1, st1⟩
    rw [hp1] at h1 h2
    dsimp only at h1 h2
    rcases hp2 : emit eid HookKind.endK none st1 with ⟨r2, st2⟩
    rw [hp2] at h2
    dsimp only at h2
    obtain ⟨hr1, hlog1, -⟩ := h1
    obtain ⟨hr2, hlog2, -⟩ := h2
    subst hr1
    subst hr2
    simp [runAndTriggerHooks, hres, hp1, hp2, hlog1, hlog2, List.append_assoc]
  · intro e hres
    have hcatch := catchPhase_ok eid e (cb amb st).amb (cb amb st).st R E hR hE hRok hEok
    have hru : runAndTriggerHooks eid cb amb st =
        catchPhase eid e (cb amb st).amb (cb amb st).st := by
      simp [runAndTriggerHooks, hres]
    rw [hru]
    exact ⟨hcatch.1, hcatch.2.2.1, hcatch.2.2.2⟩

/-- A concrete callback for the C6 witness: succeeds with one commit
and one end listener registered on emitter 0. -/
def hooksW : Hooks := ⟨[⟨1, false⟩], [], [⟨2, false⟩]⟩

def stW : St := { stInit with emitters := [(0, hooksW)] }

def cbW : Option Ctx → St → Out := fun a _ => ⟨Except.ok (), a, stW⟩

/-- Witness for C6 at a concrete scope. -/
theorem c6_hook_firing_order_witness :
    (runAndTriggerHooks 0 cbW none stInit).res = Except.ok () ∧
    (runAndTriggerHooks 0 cbW none stInit).st.evLog =
      (cbW none stInit).st.evLog
        ++ ([⟨1, false⟩] : List Listener).map (fun l => Ev.invoked l.lid HookKind.commit none)
        ++ ([⟨2, false⟩] : List Listener).map (fun l => Ev.invoked l.lid HookKind.endK none) ∧
    getEmitter 0 (runAndTriggerHooks 0 cbW none stInit).st = Hooks.empty :=
  (c6_hook_firing_order 0 cbW none stInit [⟨1, false⟩] [] [⟨2, false⟩]
    (by decide) (by decide) (by decide) (by decide) (by decide) (by decide)).1 () rfl

/-! ## Claim C5 machinery: chains of commit-listener registrations -/

@[simp] theorem setKindList_txReg (eid : Nat) (k : HookKind) (ls : List Listener) (st : St) :
    (setKindList eid k ls st).txReg = st.txReg := by cases k <;> rfl

@[simp] theorem setKindList_openTx (eid : Nat) (k : HookKind) (ls : List Listener) (st : St) :
    (setKindList eid k ls st).openTx = st.openTx := by cases k <;> rfl

@[simp] theorem setKindList_persisted (eid : Nat) (k : HookKind) (ls : List Listener) (st : St) :
    (setKindList eid k ls st).persisted = st.persisted := by cases k <;> rfl

@[simp] theorem setKindList_regDbs (eid : Nat) (k : HookKind) (ls : List Listener) (st : St) :
    (setKindList eid k ls st).regDbs = st.regDbs := by cases k <;> rfl

@[simp] theorem setKindList_nextTx (eid : Nat) (k : HookKind) (ls : List Listener) (st : St) :
    (setKindList eid k ls st).nextTx = st.nextTx := by cases k <;> rfl

@[simp] theorem setKindList_nextEmitter (eid : Nat) (k : HookKind) (ls : List Listener) (st : St) :
    (setKindList eid k ls st).nextEmitter = st.nextEmitter := by cases k <;> rfl

@[simp] theorem setKindList_initialized (eid : Nat) (k : HookKind) (ls : List Listener) (st : St) :
    (setKindList eid k ls st).initialized = st.initialized := by cases k <;> rfl

/-- A chain of `Prog.onCommit` registrations ending in `k`. -/
def regsC : List Listener → Prog → Prog
  | [], k => k
  | l :: rest, k => Prog.onCommit l (regsC rest k)

/-- The state effect of registering a list of commit listeners on
emitter `eid`. -/
def regCommits (eid : Nat) (ls : List Listener) (st : St) : St :=
  ls.foldl (fun s l => addListener eid HookKind.commit l s) st

theorem regCommits_fields (eid : Nat) : ∀ (ls : List Listener) (st : St),
    (regCommits eid ls st).initialized = st.initialized ∧
    (regCommits eid ls st).regDbs = st.regDbs ∧
    (regCommits eid ls st).txReg = st.txReg ∧
    (regCommits eid ls st).openTx = st.openTx ∧
    (regCommits eid ls st).persisted = st.persisted ∧
    (regCommits eid ls st).evLog = st.evLog ∧
    (regCommits eid ls st).nextTx = st.nextTx ∧
    (regCommits eid ls st).nextEmitter = st.nextEmitter := by
  intro ls
  induction ls with
  | nil => intro st; exact ⟨rfl, rfl, rfl, rfl, rfl, rfl, rfl, rfl⟩
  | cons l rest ih =>
    intro st
    have h := ih (addListener eid HookKind.commit l st)
    simpa [regCommits, addListener] using h

theorem regCommits_commitList (eid : Nat) : ∀ (ls : List Listener) (st : St),
    getKindList eid HookKind.commit (regCommits eid ls st) =
      getKindList eid HookKind.commit st ++ ls := by
  intro ls
  induction ls with
  | nil => intro st; simp [regCommits]
  | cons l rest ih =>
    intro st
    have h := ih (addListener eid HookKind.commit l st)
    rw [show regCommits eid (l :: rest) st =
        regCommits eid rest (addListener eid HookKind.commit l st) from rfl, h,
      addListener, getKindList_setKindList_self]
    simp

theorem regCommits_other (eid : Nat) {k2 : HookKind} (hk : k2 ≠ HookKind.commit) :
    ∀ (ls : List Listener) (st : St),
      getKindList eid k2 (regCommits eid ls st) = getKindList eid k2 st := by
  intro ls
  induction ls with
  | nil => intro st; simp [regCommits]
  | cons l rest ih =>
    intro st
    have h := ih (addListener eid HookKind.commit l st)
    rw [show regCommits eid (l :: rest) st =
        regCommits eid rest (addListener eid HookKind.commit l st) from rfl, h,
      addListener, getKindList_setKindList_ne eid _ st hk]

/-- Running a registration chain consumes one fuel per registration and
appends the listeners to the ambient hook scope. -/
theorem exec_regsC (eid : Nat) : ∀ (ls : List Listener) (k : Prog) (n : Nat)
    (amb : Option Ctx) (st : St),
    getTransactionalContextHook amb = Except.ok eid →
    exec (ls.length + n) (regsC ls k) amb st = exec n k amb (regCommits eid ls st) := by
  intro ls
  induction ls with
  | nil =>
    intro k n amb st _
    simp [regsC, regCommits]
  | cons l rest ih =>
    intro k n amb st h
    rw [show (l :: rest).length + n = Nat.succ (rest.length + n) by
      simp [List.length_cons, Nat.succ_add]]
    show (match getTransactionalContextHook amb with
      | Except.error e => (⟨Except.error e, amb, st⟩ : Out)
      | Except.ok eid2 => exec (rest.length + n) (regsC rest k) amb
          (addListener eid2 HookKind.commit l st)) = _
    rw [h]
    dsimp only
    rw [ih k n amb (addListener eid HookKind.commit l st) h]
    rw [show regCommits eid (l :: rest) st =
      regCommits eid rest (addListener eid HookKind.commit l st) from rfl]

/-- Inner REQUIRED operation registering `ls2` commit listeners. -/
def innerReq (ls2 : List Listener) : Prog :=
  Prog.call { propagation := some "REQUIRED" } (regsC ls2 Prog.ret) Prog.ret

/-- Outer REQUIRED operation registering `ls1` commit listeners and then
invoking the inner REQUIRED operation, with no pre-existing
transaction. -/
def nestedRequiredProg (ls1 ls2 : List Listener) : Prog :=
  Prog.call { propagation := some "REQUIRED" } (regsC ls1 (innerReq ls2)) Prog.ret

/-- Ambient store right after the outer hook scope is installed. -/
def ambA : Option Ctx := some [(HOOK_CONTEXT_KEY, CtxVal.nat 0)]

/-- State right after the outer hook scope is installed. -/
def stA : St :=
  { stInit with emitters := [(0, Hooks.empty)], nextEmitter := 1,
                evLog := [Ev.hookCreated 0] }

/-- State right after the driver transaction 0 is begun. -/
def stB : St :=
  { stA with nextTx := 1, openTx := [(0, [])], txReg := [0],
             evLog := stA.evLog ++ [Ev.txBegin 0] }

/-- Ambient store seen by the wrapped operation inside transaction 0. -/
def ctxT : Option Ctx :=
  some [(HOOK_CONTEXT_KEY, CtxVal.nat 0), (CURRENT_DB_ID_KEY, CtxVal.nat 0),
        (CURRENT_TRANSACTION_KEY, CtxVal.bool true)]

/-- The transaction callback the engine hands to `runAndTriggerHooks`
for a new REQUIRED transaction on the default database. -/
def dbCb (rb : Option Ctx → St → Out) : Option Ctx → St → Out :=
  fun a2 s2 => runInDatabaseTransaction "default"
    (fun a3 s3 =>
      let o := rb (some (mergeCtx a3 [(CURRENT_TRANSACTION_KEY, CtxVal.bool true)])) s3
      ⟨o.res, a3, o.st⟩) a2 s2

theorem hook_ctxT : getTransactionalContextHook ctxT = Except.ok 0 := rfl

theorem wrap_required_top (rb : Option Ctx → St → Out) :
    wrapInTransaction (some "REQUIRED") none rb none stInit =
      ⟨(runAndTriggerHooks 0 (dbCb rb) ambA stA).res, none,
        (runAndTriggerHooks 0 (dbCb rb) ambA stA).st⟩ := rfl

/-- Driver commit of transaction 0: unregister the transaction handle,
release the buffer into the persisted writes and log the commit. -/
def commitClose (s : St) : St :=
  let s2 : St := { s with txReg := s.txReg.erase 0 }
  { s2 with openTx := eraseA 0 s2.openTx,
            persisted := s2.persisted ++ (getA 0 s2.openTx).getD [],
            evLog := s2.evLog ++ [Ev.txCommit 0] }

theorem dbCb_unfold (rb : Option Ctx → St → Out) :
    dbCb rb ambA stA =
      (let o3 := rb ctxT stB
       match o3.res with
       | Except.ok _ => ⟨Except.ok (), ambA, commitClose o3.st⟩
       | Except.error e =>
         let s2 : St := { o3.st with txReg := o3.st.txReg.erase 0 }
         ⟨Except.error e, ambA,
           { s2 with openTx := eraseA 0 s2.openTx,
                     evLog := s2.evLog ++ [Ev.txRollback 0] }⟩) := rfl

theorem wrap_required_joins (rb : Option Ctx → St → Out) (st : St)
    (hini : st.initialized = true) :
    wrapInTransaction (some "REQUIRED") none rb ctxT st = rb ctxT st := by
  have hact : hasActiveContext ctxT = true := rfl
  have hflag : readTxFlag ctxT = true := rfl
  simp [wrapInTransaction, hini, hact, executeWithPropagation, handlers_required, hflag]

theorem txBeginCount_append (a b : List Ev) :
    txBeginCount (a ++ b) = txBeginCount a + txBeginCount b := by
  simp [txBeginCount, List.filter_append]

theorem hookCreatedCount_append (a b : List Ev) :
    hookCreatedCount (a ++ b) = hookCreatedCount a + hookCreatedCount b := by
  simp [hookCreatedCount, List.filter_append]

theorem commitInvocations_append (a b : List Ev) :
    commitInvocations (a ++ b) = commitInvocations a ++ commitInvocations b := by
  simp [commitInvocations, List.filterMap_append]

theorem txBeginCount_invokedMap (ls : List Listener) :
    txBeginCount (ls.map (fun l => Ev.invoked l.lid HookKind.commit none)) = 0 := by
  induction ls with
  | nil => rfl
  | cons l rest ih => simp_all [txBeginCount, List.filter]

theorem hookCreatedCount_invokedMap (ls : List Listener) :
    hookCreatedCount (ls.map (fun l => Ev.invoked l.lid HookKind.commit none)) = 0 := by
  induction ls with
  | nil => rfl
  | cons l rest ih => simp_all [hookCreatedCount, List.filter]

theorem commitInvocations_invokedMap (ls : List Listener) :
    commitInvocations (ls.map (fun l => Ev.invoked l.lid HookKind.commit none)) =
      ls.map Listener.lid := by
  induction ls with
  | nil => rfl
  | cons l rest ih => simpa [commitInvocations, List.filterMap] using ih

/-- One-step unfolding of the interpreter at a wrapped call. -/
theorem exec_call_unfold (n : Nat) (opts : TxOptions) (body k : Prog)
    (amb : Option Ctx) (st : St) :
    exec (Nat.succ n) (Prog.call opts body k) amb st =
      (let o := wrapInTransaction opts.propagation opts.databaseName
          (fun a s => exec n body a s) amb st
       match o.res with
       | Except.ok _ => exec n k o.amb o.st
       | Except.error e => ⟨Except.error e, o.amb, o.st⟩) := rfl

/-- Evaluation of the outer operation body (registrations, then the
joined inner REQUIRED call) inside transaction 0. -/
theorem inner_body_eval (ls1 ls2 : List Listener) :
    exec (ls1.length + (ls2.length + 2)) (regsC ls1 (innerReq ls2)) ctxT stB =
      ⟨Except.ok (), ctxT, regCommits 0 ls2 (regCommits 0 ls1 stB)⟩ := by
  rw [exec_regsC 0 ls1 (innerReq ls2) (ls2.length + 2) ctxT stB hook_ctxT]
  have hini : (regCommits 0 ls1 stB).initialized = true :=
    (regCommits_fields 0 ls1 stB).1.trans rfl
  rw [show ls2.length + 2 = Nat.succ (ls2.length + 1) from rfl]
  rw [show innerReq ls2 =
    Prog.call { propagation := some "REQUIRED" } (regsC ls2 Prog.ret) Prog.ret from rfl]
  rw [exec_call_unfold]
  dsimp only
  rw [wrap_required_joins _ _ hini]
  rw [exec_regsC 0 ls2 Prog.ret 1 ctxT (regCommits 0 ls1 stB) hook_ctxT]
  rw [show exec 1 Prog.ret ctxT (regCommits 0 ls2 (regCommits 0 ls1 stB)) =
    ⟨Except.ok (), ctxT, regCommits 0 ls2 (regCommits 0 ls1 stB)⟩ from rfl]
  dsimp only
  rw [show exec (ls2.length + 1) Prog.ret ctxT (regCommits 0 ls2 (regCommits 0 ls1 stB)) =
    ⟨Except.ok (), ctxT, regCommits 0 ls2 (regCommits 0 ls1 stB)⟩ from rfl]

/-! ## Claim C5 -/

/-- Claim C5 (counterexample): nested REQUIRED operations with no
pre-existing transaction whose registered commit listeners include a
throwing one — listener 2, registered after the throwing listener 1, is
invoked zero times (the log records no invocation of it), so "each
commit listener is invoked exactly once" fails as stated. -/
theorem c5_counterexample_throwing_listener :
    (exec 20 nestedRequiredThrowingHookProg none stInit).res = Except.error (Err.listener 1) ∧
    (exec 20 nestedRequiredThrowingHookProg none stInit).st.evLog =
      [Ev.hookCreated 0, Ev.txBegin 0, Ev.txCommit 0, Ev.invoked 1 HookKind.commit none] :=
  ⟨rfl, by decide⟩

/-- Claim C5 (amended: provided no registered listener throws): nested
REQUIRED operations with no pre-existing transaction open exactly one
driver transaction and exactly one hook scope (the inner call joins the
outer scope), and each of the commit listeners registered during the
attempt — `ls1` by the outer operation, `ls2` by the inner — is invoked
exactly once, in registration order. -/
theorem c5_nested_required_single_transaction (ls1 ls2 : List Listener)
    (h1 : ∀ l ∈ ls1, l.fails = false) (h2 : ∀ l ∈ ls2, l.fails = false) :
    (exec (ls1.length + (ls2.length + 3)) (nestedRequiredProg ls1 ls2) none stInit).res =
      Except.ok () ∧
    (exec (ls1.length + (ls2.length + 3)) (nestedRequiredProg ls1 ls2) none stInit).st.evLog =
      [Ev.hookCreated 0, Ev.txBegin 0, Ev.txCommit 0]
        ++ (ls1 ++ ls2).map (fun l => Ev.invoked l.lid HookKind.commit none) ∧
    txBeginCount
      (exec (ls1.length + (ls2.length + 3)) (nestedRequiredProg ls1 ls2) none stInit).st.evLog
      = 1 ∧
    hookCreatedCount
      (exec (ls1.length + (ls2.length + 3)) (nestedRequiredProg ls1 ls2) none stInit).st.evLog
      = 1 ∧
    commitInvocations
      (exec (ls1.length + (ls2.length + 3)) (nestedRequiredProg ls1 ls2) none stInit).st.evLog
      = (ls1 ++ ls2).map Listener.lid := by
  obtain ⟨hC1, hC2, hC3, hC4, hC5x, hC6x, hC7x, hC8x⟩ := regCommits_fields 0 ls1 stB
  obtain ⟨hD1, hD2, hD3, hD4, hD5x, hD6x, hD7x, hD8x⟩ :=
    regCommits_fields 0 ls2 (regCommits 0 ls1 stB)
  -- the state produced by the transaction callback
  have eDb : dbCb
      (fun a s => exec (ls1.length + (ls2.length + 2)) (regsC ls1 (innerReq ls2)) a s)
      ambA stA =
      ⟨Except.ok (), ambA, commitClose (regCommits 0 ls2 (regCommits 0 ls1 stB))⟩ := by
    rw [dbCb_unfold]
    dsimp only
    rw [inner_body_eval]
  -- the log of the closed state
  have hlogE : (commitClose (regCommits 0 ls2 (regCommits 0 ls1 stB))).evLog =
      [Ev.hookCreated 0, Ev.txBegin 0, Ev.txCommit 0] := by
    show (regCommits 0 ls2 (regCommits 0 ls1 stB)).evLog ++ [Ev.txCommit 0] = _
    rw [hD6x, hC6x]
    rfl
  -- the listener lists of the closed state
  have hKC : getKindList 0 HookKind.commit
      (commitClose (regCommits 0 ls2 (regCommits 0 ls1 stB))) = ls1 ++ ls2 := by
    rw [getKindList_congr 0 HookKind.commit (regCommits 0 ls2 (regCommits 0 ls1 stB))
      (commitClose (regCommits 0 ls2 (regCommits 0 ls1 stB))) rfl]
    rw [regCommits_commitList 0 ls2 (regCommits 0 ls1 stB),
      regCommits_commitList 0 ls1 stB]
    have hB : getKindList 0 HookKind.commit stB = [] := rfl
    rw [hB]
    simp
  have hKE : getKindList 0 HookKind.endK
      (commitClose (regCommits 0 ls2 (regCommits 0 ls1 stB))) = [] := by
    rw [getKindList_congr 0 HookKind.endK (regCommits 0 ls2 (regCommits 0 ls1 stB))
      (commitClose (regCommits 0 ls2 (regCommits 0 ls1 stB))) rfl]
    rw [regCommits_other 0 (by simp) ls2 (regCommits 0 ls1 stB),
      regCommits_other 0 (by simp) ls1 stB]
    rfl
  have hok : ∀ l ∈ ls1 ++ ls2, l.fails = false := by
    intro l hl
    rcases List.mem_append.1 hl with h | h
    · exact h1 l h
    · exact h2 l h
  have hcm := emit_ok 0 HookKind.commit none
    (commitClose (regCommits 0 ls2 (regCommits 0 ls1 stB))) (ls1 ++ ls2) hKC hok
  have hE2 : getKindList 0 HookKind.endK
      (emit 0 HookKind.commit none
        (commitClose (regCommits 0 ls2 (regCommits 0 ls1 stB)))).2 = [] := by
    rw [hcm.2.2 HookKind.endK (by simp), hKE]
  have hen := emit_ok 0 HookKind.endK none
    (emit 0 HookKind.commit none
      (commitClose (regCommits 0 ls2 (regCommits 0 ls1 stB)))).2 [] hE2 (by simp)
  rcases hp1 : emit 0 HookKind.commit none
    (commitClose (regCommits 0 ls2 (regCommits 0 ls1 stB))) with ⟨r1, s1⟩
  rw [hp1] at hcm hen
  dsimp only at hcm hen
  rcases hp2 : emit 0 HookKind.endK none s1 with ⟨r2, s2⟩
  rw [hp2] at hen
  dsimp only at hen
  obtain ⟨hr1, hlog1, -⟩ := hcm
  obtain ⟨hr2, hlog2, -⟩ := hen
  subst hr1
  subst hr2
  have hRun : (runAndTriggerHooks 0
      (dbCb (fun a s => exec (ls1.length + (ls2.length + 2)) (regsC ls1 (innerReq ls2)) a s))
      ambA stA).res = Except.ok () ∧
      (runAndTriggerHooks 0
        (dbCb (fun a s => exec (ls1.length + (ls2.length + 2)) (regsC ls1 (innerReq ls2)) a s))
        ambA stA).st.evLog =
        [Ev.hookCreated 0, Ev.txBegin 0, Ev.txCommit 0]
          ++ (ls1 ++ ls2).map (fun l => Ev.invoked l.lid HookKind.commit none) := by
    constructor
    · simp [runAndTriggerHooks, eDb, hp1, hp2]
    · simp [runAndTriggerHooks, eDb, hp1, hp2, hlog2, hlog1, hlogE]
  have eTop : exec (ls1.length + (ls2.length + 3)) (nestedRequiredProg ls1 ls2) none stInit =
      ⟨Except.ok (), none,
        (runAndTriggerHooks 0
          (dbCb (fun a s => exec (ls1.length + (ls2.length + 2)) (regsC ls1 (innerReq ls2)) a s))
          ambA stA).st⟩ := by
    rw [show ls1.length + (ls2.length + 3) = Nat.succ (ls1.length + (ls2.length + 2)) from rfl]
    rw [show nestedRequiredProg ls1 ls2 = Prog.call { propagation := some "REQUIRED" }
      (regsC ls1 (innerReq ls2)) Prog.ret from rfl]
    rw [exec_call_unfold]
    dsimp only
    rw [wrap_required_top]
    dsimp only
    rw [hRun.1]
    dsimp only
    rw [show exec (ls1.length + (ls2.length + 2)) Prog.ret none
      (runAndTriggerHooks 0
        (dbCb (fun a s => exec (ls1.length + (ls2.length + 2)) (regsC ls1 (innerReq ls2)) a s))
        ambA stA).st =
      ⟨Except.ok (), none,
        (runAndTriggerHooks 0
          (dbCb (fun a s => exec (ls1.length + (ls2.length + 2)) (regsC ls1 (innerReq ls2)) a s))
          ambA stA).st⟩ from rfl]
  rw [eTop]
  dsimp only
  refine ⟨rfl, hRun.2, ?_, ?_, ?_⟩
  · rw [hRun.2, txBeginCount_append, txBeginCount_invokedMap]
    rfl
  · rw [hRun.2, hookCreatedCount_append, hookCreatedCount_invokedMap]
    rfl
  · rw [hRun.2, commitInvocations_append, commitInvocations_invokedMap]
    rfl

/-- Witness for C5 with two outer and one inner commit listener. -/
theorem c5_nested_required_single_transaction_witness :
    (∀ l ∈ ([⟨1, false⟩, ⟨2, false⟩] : List Listener), l.fails = false) ∧
    (∀ l ∈ ([⟨3, false⟩] : List Listener), l.fails = false) ∧
    ((exec (([⟨1, false⟩, ⟨2, false⟩] : List Listener).length
          + (([⟨3, false⟩] : List Listener).length + 3))
        (nestedRequiredProg [⟨1, false⟩, ⟨2, false⟩] [⟨3, false⟩]) none stInit).res =
        Except.ok () ∧
      (exec (([⟨1, false⟩, ⟨2, false⟩] : List Listener).length
          + (([⟨3, false⟩] : List Listener).length + 3))
        (nestedRequiredProg [⟨1, false⟩, ⟨2, false⟩] [⟨3, false⟩]) none stInit).st.evLog =
        [Ev.hookCreated 0, Ev.txBegin 0, Ev.txCommit 0]
          ++ (([⟨1, false⟩, ⟨2, false⟩] ++ [⟨3, false⟩] : List Listener)).map
              (fun l => Ev.invoked l.lid HookKind.commit none) ∧
      txBeginCount
        (exec (([⟨1, false⟩, ⟨2, false⟩] : List Listener).length
            + (([⟨3, false⟩] : List Listener).length + 3))
          (nestedRequiredProg [⟨1, false⟩, ⟨2, false⟩] [⟨3, false⟩]) none stInit).st.evLog = 1 ∧
      hookCreatedCount
        (exec (([⟨1, false⟩, ⟨2, false⟩] : List Listener).length
            + (([⟨3, false⟩] : List Listener).length + 3))
          (nestedRequiredProg [⟨1, false⟩, ⟨2, false⟩] [⟨3, false⟩]) none stInit).st.evLog = 1 ∧
      commitInvocations
        (exec (([⟨1, false⟩, ⟨2, false⟩] : List Listener).length
            + (([⟨3, false⟩] : List Listener).length + 3))
          (nestedRequiredProg [⟨1, false⟩, ⟨2, false⟩] [⟨3, false⟩]) none stInit).st.evLog =
        (([⟨1, false⟩, ⟨2, false⟩] ++ [⟨3, false⟩] : List Listener)).map Listener.lid) :=
  ⟨by decide, by decide,
    c5_nested_required_single_transaction [⟨1, false⟩, ⟨2, false⟩] [⟨3, false⟩]
      (by decide) (by decide)⟩

/-! ## Claim C8 machinery: the live transaction registry is restored -/

/-- All registered transaction ids are below the fresh-id counter (true
initially and preserved by execution, since ids are drawn fresh). -/
def txBound (st : St) : Prop := ∀ id ∈ st.txReg, id < st.nextTx

/-- The output preserves the transaction registry: whenever the input
satisfies the freshness invariant, the registry is returned exactly as
it was, the invariant still holds, and the id counter is monotone. -/
def RegPres (st : St) (o : Out) : Prop :=
  txBound st → o.st.txReg = st.txReg ∧ txBound o.st ∧ st.nextTx ≤ o.st.nextTx

theorem regPres_of_eq {st : St} {o : Out} (h1 : o.st.txReg = st.txReg)
    (h2 : o.st.nextTx = st.nextTx) : RegPres st o := fun hb =>
  ⟨h1, fun id hid => by rw [h2]; exact hb id (h1 ▸ hid), le_of_eq h2.symm⟩

theorem regPres_shift {st s2 : St} {o : Out} (hr : s2.txReg = st.txReg)
    (hn : s2.nextTx = st.nextTx) (h : RegPres s2 o) : RegPres st o := by
  intro hb
  have hb2 : txBound s2 := by
    intro id hid
    rw [hr] at hid
    rw [hn]
    exact hb id hid
  obtain ⟨a, b, c⟩ := h hb2
  exact ⟨a.trans hr, b, le_trans (le_of_eq hn.symm) c⟩

theorem regPres_compose {st : St} {o o2 : Out} (h : RegPres st o) (h2 : RegPres o.st o2) :
    RegPres st o2 := by
  intro hb
  obtain ⟨a, b, c⟩ := h hb
  obtain ⟨a2, b2, c2⟩ := h2 b
  exact ⟨a2.trans a, b2, le_trans c c2⟩

@[simp] theorem removeAllListeners_txReg (eid : Nat) (st : St) :
    (removeAllListeners eid st).txReg = st.txReg := rfl

@[simp] theorem removeAllListeners_nextTx (eid : Nat) (st : St) :
    (removeAllListeners eid st).nextTx = st.nextTx := rfl

theorem emitGo_txFields (eid : Nat) (kind : HookKind) (arg : Option Err) :
    ∀ (ls : List Listener) (st : St),
      (emitGo eid kind arg ls st).2.txReg = st.txReg ∧
      (emitGo eid kind arg ls st).2.nextTx = st.nextTx := by
  intro ls
  induction ls with
  | nil => intro st; exact ⟨rfl, rfl⟩
  | cons l rest ih =>
    intro st
    cases hf : l.fails with
    | true => simp [emitGo, hf]
    | false =>
      have h := ih ({ setKindList eid kind rest st with
        evLog := (setKindList eid kind rest st).evLog ++ [Ev.invoked l.lid kind arg] })
      simp only [emitGo, hf] at h ⊢
      simpa using h

theorem emit_txFields (eid : Nat) (kind : HookKind) (arg : Option Err) (st : St) :
    (emit eid kind arg st).2.txReg = st.txReg ∧
    (emit eid kind arg st).2.nextTx = st.nextTx :=
  emitGo_txFields eid kind arg (getKindList eid kind st) st

theorem catchPhase_txFields (eid : Nat) (e : Err) (amb : Option Ctx) (st : St) :
    (catchPhase eid e amb st).st.txReg = st.txReg ∧
    (catchPhase eid e amb st).st.nextTx = st.nextTx := by
  have h1 := emit_txFields eid HookKind.rollback (some e) st
  rcases hp1 : emit eid HookKind.rollback (some e) st with ⟨r1, st1⟩
  rw [hp1] at h1
  dsimp only at h1
  cases r1 with
  | some e2 => simp [catchPhase, hp1, h1.1, h1.2]
  | none =>
    have h2 := emit_txFields eid HookKind.endK (some e) st1
    rcases hp2 : emit eid HookKind.endK (some e) st1 with ⟨r2, st2⟩
    rw [hp2] at h2
    dsimp only at h2
    cases r2 with
    | some e3 => simp [catchPhase, hp1, hp2, h2.1.trans h1.1, h2.2.trans h1.2]
    | none => simp [catchPhase, hp1, hp2, h2.1.trans h1.1, h2.2.trans h1.2]

theorem runAndTriggerHooks_regPres (eid : Nat) (cb : Option Ctx → St → Out)
    (amb : Option Ctx) (st : St) (hcb : RegPres st (cb amb st)) :
    RegPres st (runAndTriggerHooks eid cb amb st) := by
  intro hb
  obtain ⟨a, b, c⟩ := hcb hb
  cases hres : (cb amb st).res with
  | ok u =>
    have h1 := emit_txFields eid HookKind.commit none (cb amb st).st
    rcases hp1 : emit eid HookKind.commit none (cb amb st).st with ⟨r1, st1⟩
    rw [hp1] at h1
    dsimp only at h1
    cases r1 with
    | some e1 =>
      have hc := catchPhase_txFields eid e1 (cb amb st).amb st1
      have erun : runAndTriggerHooks eid cb amb st = catchPhase eid e1 (cb amb st).amb st1 := by
        simp [runAndTriggerHooks, hres, hp1]
      rw [erun]
      refine ⟨(hc.1.trans h1.1).trans a, ?_, le_trans c (le_of_eq (h1.2.symm.trans hc.2.symm))⟩
      intro id hid
      rw [hc.1, h1.1] at hid
      rw [hc.2, h1.2]
      exact b id hid
    | none =>
      have h2 := emit_txFields eid HookKind.endK none st1
      rcases hp2 : emit eid HookKind.endK none st1 with ⟨r2, st2⟩
      rw [hp2] at h2
      dsimp only at h2
      cases r2 with
      | some e2 =>
        have hc := catchPhase_txFields eid e2 (cb amb st).amb st2
        have erun : runAndTriggerHooks eid cb amb st =
            catchPhase eid e2 (cb amb st).amb st2 := by
          simp [runAndTriggerHooks, hres, hp1, hp2]
        rw [erun]
        refine ⟨((hc.1.trans h2.1).trans h1.1).trans a, ?_, ?_⟩
        · intro id hid
          rw [hc.1, h2.1, h1.1] at hid
          rw [hc.2, h2.2, h1.2]
          exact b id hid
        · exact le_trans c (le_of_eq (h1.2.symm.trans (h2.2.symm.trans hc.2.symm)))
      | none =>
        have erun : runAndTriggerHooks eid cb amb st =
            ⟨Except.ok (), (cb amb st).amb, removeAllListeners eid st2⟩ := by
          simp [runAndTriggerHooks, hres, hp1, hp2]
        rw [erun]
        refine ⟨?_, ?_, ?_⟩
        · show (removeAllListeners eid st2).txReg = st.txReg
          rw [removeAllListeners_txReg, h2.1, h1.1, a]
        · intro id hid
          show id < (removeAllListeners eid st2).nextTx
          rw [removeAllListeners_txReg, h2.1, h1.1] at hid
          rw [removeAllListeners_nextTx, h2.2, h1.2]
          exact b id hid
        · show st.nextTx ≤ (removeAllListeners eid st2).nextTx
          rw [removeAllListeners_nextTx, h2.2, h1.2]
          exact c
  | error e =>
    have hc := catchPhase_txFields eid e (cb amb st).amb (cb amb st).st
    have erun : runAndTriggerHooks eid cb amb st =
        catchPhase eid e (cb amb st).amb (cb amb st).st := by
      simp [runAndTriggerHooks, hres]
    rw [erun]
    refine ⟨hc.1.trans a, ?_, le_trans c (le_of_eq hc.2.symm)⟩
    intro id hid
    rw [hc.1] at hid
    rw [hc.2]
    exact b id hid


/-- The state right after `runInDatabaseTransaction` has begun a driver
transaction and registered the fresh transaction handle. -/
def txOpen (st : St) : St :=
  { st with nextTx := st.nextTx + 1, openTx := setA st.nextTx [] st.openTx,
            txReg := st.nextTx :: st.txReg, evLog := st.evLog ++ [Ev.txBegin st.nextTx] }

/-- The ambient store handed to the transaction callback. -/
def txAmb (amb : Option Ctx) (st : St) : Option Ctx :=
  some (mergeCtx amb [(CURRENT_DB_ID_KEY, CtxVal.nat st.nextTx)])

theorem runInDatabaseTransaction_unfold (name : String) (cb : Option Ctx → St → Out)
    (amb : Option Ctx) (st : St) :
    runInDatabaseTransaction name cb amb st =
      (match getA name st.regDbs with
       | none => ⟨Except.error (Err.databaseNotFound name), amb, st⟩
       | some _ =>
         let o := cb (txAmb amb st) (txOpen st)
         let st2 : St := { o.st with txReg := o.st.txReg.erase st.nextTx }
         match o.res with
         | Except.ok _ =>
           ⟨Except.ok (), amb,
             { st2 with openTx := eraseA st.nextTx st2.openTx,
                        persisted := st2.persisted ++ (getA st.nextTx st2.openTx).getD [],
                        evLog := st2.evLog ++ [Ev.txCommit st.nextTx] }⟩
         | Except.error e =>
           ⟨Except.error e, amb,
             { st2 with openTx := eraseA st.nextTx st2.openTx,
                        evLog := st2.evLog ++ [Ev.txRollback st.nextTx] }⟩) := rfl

theorem txOpen_bound (st : St) (hb : txBound st) : txBound (txOpen st) := by
  intro id hid
  rcases List.mem_cons.1 hid with h | h
  · subst h; exact Nat.lt_succ_self _
  · exact Nat.lt_succ_of_lt (hb id h)

theorem runInDatabaseTransaction_regPres (name : String) (cb : Option Ctx → St → Out)
    (amb : Option Ctx) (st : St) (hcb : ∀ a s, RegPres s (cb a s)) :
    RegPres st (runInDatabaseTransaction name cb amb st) := by
  intro hb
  rw [runInDatabaseTransaction_unfold]
  cases hdb : getA name st.regDbs with
  | none => exact ⟨rfl, hb, le_refl _⟩
  | some dbh =>
    dsimp only
    obtain ⟨a, b, c⟩ := hcb (txAmb amb st) (txOpen st) (txOpen_bound st hb)
    have herase : (cb (txAmb amb st) (txOpen st)).st.txReg.erase st.nextTx = st.txReg := by
      rw [a]
      exact List.erase_cons_head st.nextTx st.txReg
    have hnext : st.nextTx ≤ (cb (txAmb amb st) (txOpen st)).st.nextTx :=
      le_trans (Nat.le_succ _) c
    have hbfin : ∀ id ∈ st.txReg, id < (cb (txAmb amb st) (txOpen st)).st.nextTx :=
      fun id hid => lt_of_lt_of_le (hb id hid) hnext
    cases hres : (cb (txAmb amb st) (txOpen st)).res with
    | ok u =>
      dsimp only
      exact ⟨herase, by intro id hid; rw [herase] at hid; exact hbfin id hid, hnext⟩
    | error e =>
      dsimp only
      exact ⟨herase, by intro id hid; rw [herase] at hid; exact hbfin id hid, hnext⟩

theorem newHook_regPres (runBody : Option Ctx → St → Out) (a : Option Ctx) (s : St)
    (hrb : ∀ a2 s2, RegPres s2 (runBody a2 s2)) :
    RegPres s (runAndTriggerHooks (createEventEmitterInContext a s).1 runBody
      (createEventEmitterInContext a s).2.1 (createEventEmitterInContext a s).2.2) :=
  @regPres_shift s (createEventEmitterInContext a s).2.2 _ rfl rfl
    (runAndTriggerHooks_regPres (createEventEmitterInContext a s).1 runBody
      (createEventEmitterInContext a s).2.1 (createEventEmitterInContext a s).2.2
      (hrb (createEventEmitterInContext a s).2.1 (createEventEmitterInContext a s).2.2))

theorem newTx_regPres (databaseName : String) (runBody : Option Ctx → St → Out)
    (a : Option Ctx) (s : St) (hrb : ∀ a2 s2, RegPres s2 (runBody a2 s2)) :
    RegPres s (runAndTriggerHooks (createEventEmitterInContext a s).1
      (fun a2 s2 => runInDatabaseTransaction databaseName
        (fun a3 s3 =>
          let o := runBody (some (mergeCtx a3 [(CURRENT_TRANSACTION_KEY, CtxVal.bool true)])) s3
          ⟨o.res, a3, o.st⟩) a2 s2)
      (createEventEmitterInContext a s).2.1 (createEventEmitterInContext a s).2.2) :=
  @regPres_shift s (createEventEmitterInContext a s).2.2 _ rfl rfl
    (runAndTriggerHooks_regPres (createEventEmitterInContext a s).1 _
      (createEventEmitterInContext a s).2.1 (createEventEmitterInContext a s).2.2
      (runInDatabaseTransaction_regPres databaseName _
        (createEventEmitterInContext a s).2.1 (createEventEmitterInContext a s).2.2
        (fun _ s3 => hrb _ s3)))

theorem executeWithPropagation_regPres (prop databaseName : String)
    (runBody : Option Ctx → St → Out) (amb : Option Ctx) (st : St)
    (hrb : ∀ a s, RegPres s (runBody a s)) :
    RegPres st (executeWithPropagation prop databaseName runBody amb st) := by
  unfold executeWithPropagation
  dsimp only
  cases hh : getA prop propagationHandlers with
  | none => exact regPres_of_eq rfl rfl
  | some tag =>
    cases tag with
    | mandatory =>
      dsimp only
      by_cases hcur : readTxFlag amb = true
      · rw [if_pos hcur]
        exact hrb amb st
      · rw [if_neg hcur]
        exact regPres_of_eq rfl rfl
    | nested =>
      dsimp only
      exact newTx_regPres databaseName runBody amb st hrb
    | never =>
      dsimp only
      by_cases hcur : readTxFlag amb = true
      · rw [if_pos hcur]
        exact regPres_of_eq rfl rfl
      · rw [if_neg hcur]
        exact newHook_regPres runBody amb st hrb
    | notSupported =>
      dsimp only
      by_cases hcur : readTxFlag amb = true
      · rw [if_pos hcur]
        exact newHook_regPres runBody
          (some (mergeCtx amb [(CURRENT_TRANSACTION_KEY, CtxVal.bool false)])) st hrb
      · rw [if_neg hcur]
        exact hrb amb st
    | required =>
      dsimp only
      by_cases hcur : readTxFlag amb = true
      · rw [if_pos hcur]
        exact hrb amb st
      · rw [if_neg hcur]
        exact newTx_regPres databaseName runBody amb st hrb
    | requiresNew =>
      dsimp only
      by_cases hcur : readTxFlag amb = true
      · rw [if_pos hcur]
        exact @regPres_shift st ({ st with evLog := st.evLog ++ [Ev.warned] } : St) _ rfl rfl
          (newHook_regPres runBody
            (some (mergeCtx amb [(CURRENT_TRANSACTION_KEY, CtxVal.bool false)]))
            ({ st with evLog := st.evLog ++ [Ev.warned] } : St) hrb)
      · rw [if_neg hcur]
        exact newTx_regPres databaseName runBody amb st hrb
    | supports =>
      dsimp only
      by_cases hcur : readTxFlag amb = true
      · rw [if_pos hcur]
        exact hrb amb st
      · rw [if_neg hcur]
        exact newHook_regPres runBody amb st hrb

theorem wrapInTransaction_regPres (propagation databaseName : Option String)
    (runBody : Option Ctx → St → Out) (amb : Option Ctx) (st : St)
    (hrb : ∀ a s, RegPres s (runBody a s)) :
    RegPres st (wrapInTransaction propagation databaseName runBody amb st) := by
  unfold wrapInTransaction
  by_cases hinit : st.initialized = false
  · simp only [hinit, if_true]
    exact regPres_of_eq rfl rfl
  · simp only [hinit, if_false]
    by_cases hact : hasActiveContext amb
    · simp only [hact, if_true]
      exact executeWithPropagation_regPres _ _ runBody amb st hrb
    · simp only [hact, if_false]
      exact executeWithPropagation_regPres _ _ runBody (some (mergeCtx none [])) st hrb

theorem exec_regPres : ∀ (n : Nat) (p : Prog) (amb : Option Ctx) (st : St),
    RegPres st (exec n p amb st) := by
  intro n
  induction n with
  | zero => intro p amb st; exact regPres_of_eq rfl rfl
  | succ n ih =>
    intro p amb st
    cases p with
    | ret => exact regPres_of_eq rfl rfl
    | throwErr m => exact regPres_of_eq rfl rfl
    | dbWrite name w k =>
      have estep : exec (Nat.succ n) (Prog.dbWrite name w k) amb st =
          (match getCurrentDatabaseInfo name amb st with
           | Except.error e => ⟨Except.error e, amb, st⟩
           | Except.ok info =>
             match info.txId with
             | some id =>
               exec n k amb
                 { st with openTx := setA id ((getA id st.openTx).getD [] ++ [(name, w)]) st.openTx,
                           evLog := st.evLog ++ [Ev.wrote (some id) name w] }
             | none =>
               exec n k amb
                 { st with persisted := st.persisted ++ [(name, w)],
                           evLog := st.evLog ++ [Ev.wrote none name w] }) := rfl
      rw [estep]
      cases hinfo : getCurrentDatabaseInfo name amb st with
      | error e => exact regPres_of_eq rfl rfl
      | ok info =>
        dsimp only
        cases hti : info.txId with
        | some id =>
          dsimp only
          exact @regPres_shift st
            ({ st with openTx := setA id ((getA id st.openTx).getD [] ++ [(name, w)]) st.openTx,
                       evLog := st.evLog ++ [Ev.wrote (some id) name w] } : St) _ rfl rfl
            (ih k amb _)
        | none =>
          dsimp only
          exact @regPres_shift st
            ({ st with persisted := st.persisted ++ [(name, w)],
                       evLog := st.evLog ++ [Ev.wrote none name w] } : St) _ rfl rfl
            (ih k amb _)
    | onCommit l k =>
      have estep : exec (Nat.succ n) (Prog.onCommit l k) amb st =
          (match getTransactionalContextHook amb with
           | Except.error e => ⟨Except.error e, amb, st⟩
           | Except.ok eid => exec n k amb (addListener eid HookKind.commit l st)) := rfl
      rw [estep]
      cases hh : getTransactionalContextHook amb with
      | error e => exact regPres_of_eq rfl rfl
      | ok eid =>
        dsimp only
        exact @regPres_shift st (addListener eid HookKind.commit l st) _
          (by simp [addListener]) (by simp [addListener]) (ih k amb _)
    | onRollback l k =>
      have estep : exec (Nat.succ n) (Prog.onRollback l k) amb st =
          (match getTransactionalContextHook amb with
           | Except.error e => ⟨Except.error e, amb, st⟩
           | Except.ok eid => exec n k amb (addListener eid HookKind.rollback l st)) := rfl
      rw [estep]
      cases hh : getTransactionalContextHook amb with
      | error e => exact regPres_of_eq rfl rfl
      | ok eid =>
        dsimp only
        exact @regPres_shift st (addListener eid HookKind.rollback l st) _
          (by simp [addListener]) (by simp [addListener]) (ih k amb _)
    | onComplete l k =>
      have estep : exec (Nat.succ n) (Prog.onComplete l k) amb st =
          (match getTransactionalContextHook amb with
           | Except.error e => ⟨Except.error e, amb, st⟩
           | Except.ok eid => exec n k amb (addListener eid HookKind.endK l st)) := rfl
      rw [estep]
      cases hh : getTransactionalContextHook amb with
      | error e => exact regPres_of_eq rfl rfl
      | ok eid =>
        dsimp only
        exact @regPres_shift st (addListener eid HookKind.endK l st) _
          (by simp [addListener]) (by simp [addListener]) (ih k amb _)
    | call opts body k =>
      have hw := wrapInTransaction_regPres opts.propagation opts.databaseName
        (fun a s => exec n body a s) amb st (fun a s => ih body a s)
      rw [exec_call_unfold]
      dsimp only
      cases hres : (wrapInTransaction opts.propagation opts.databaseName
          (fun a s => exec n body a s) amb st).res with
      | ok u =>
        exact regPres_compose hw (ih k _ _)
      | error e =>
        exact hw
    | tryIgnore sub k =>
      have estep : exec (Nat.succ n) (Prog.tryIgnore sub k) amb st =
          exec n k (exec n sub amb st).amb (exec n sub amb st).st := rfl
      rw [estep]
      exact regPres_compose (ih sub amb st) (ih k _ _)

/-! ## Claim C8 -/

/-- Claim C8: registry cleanup is unconditional.  For every program,
every ambient store and every state whose registered transaction ids
are below the fresh-id counter (true of any reachable state, since ids
are drawn fresh), the live transaction registry after execution is
exactly the registry before: every `(id, handle)` entry registered by
`runInDatabaseTransaction` for a transaction attempt is removed before
the call returns or raises, on the success path and on the failure
path alike. -/
theorem c8_registry_cleanup_unconditional (n : Nat) (p : Prog) (amb : Option Ctx)
    (st : St) (hb : txBound st) : (exec n p amb st).st.txReg = st.txReg :=
  (exec_regPres n p amb st hb).1

/-- A transaction whose operation fails (rollback path). -/
def failingTxProg : Prog :=
  Prog.call { propagation := some "REQUIRED" }
    (Prog.dbWrite "default" 7 (Prog.throwErr "fail")) Prog.ret

/-- Witness for C8 at a concrete failing transaction. -/
theorem c8_registry_cleanup_unconditional_witness :
    txBound stInit ∧ (exec 20 failingTxProg none stInit).st.txReg = stInit.txReg :=
  ⟨(fun _ hid => nomatch hid),
    c8_registry_cleanup_unconditional 20 failingTxProg none stInit (fun _ hid => nomatch hid)⟩
